import Mathlib

/-!
Shallow embedding of `src/app.py` (class `InstagramReelBot`): the daily
batch lifecycle of a content-republishing bot.  Persistent state (the JSON
list files, the per-day queue file, the Excel ledger and the downloaded
media files) becomes an explicit `BotState` record; the external Instagram
collaborators become function parameters (`fetch` for
`extract_reel_info`/`download_post`, `publish` for `client.clip_upload`),
and the randomness of `random.sample` becomes an explicit list of chosen
indices into the available pool.
-/

namespace Reels

/-- `self.daily_limit = 5` in `InstagramReelBot.__init__`. -/
def daily_limit : Nat := 5

/-- One row of `description.xlsx`: columns URL, Description, Download_Date,
Upload_Date (blank string until published). -/
structure LedgerRow where
  url : String
  description : String
  download_date : String
  upload_date : String
  deriving Repr, DecidableEq

/-- The dict built by `download_reel` and stored in `daily_reels_<date>.json`:
`file_path`, `description`, `url`. -/
structure ReelData where
  file_path : String
  description : String
  url : String
  deriving Repr, DecidableEq

/-- The persistent state of the bot across calls:
`reels.json` (all items), `used.json` (used items),
`daily_reels_<today>.json` (`none` = file absent), `description.xlsx`
(the ledger) and the set of media files on disk. -/
structure BotState where
  all_reels : List String
  used_reels : List String
  daily_queue : Option (List ReelData)
  ledger : List LedgerRow
  files : List String
  deriving Repr, DecidableEq

/-- `get_available_reels`:
`[reel for reel in all_reels if reel not in used_reels]`. -/
def get_available_reels (s : BotState) : List String :=
  s.all_reels.filter (fun r => !(s.used_reels.contains r))

/-- `random.sample(pool, k)` returns the values of `pool` at `k` distinct
randomly drawn positions; the draw itself is externalised as the index
list `idx` (a valid draw has `idx.Nodup` and every index in bounds). -/
def random_sample (pool : List String) (idx : List Nat) : List String :=
  idx.map (fun i => pool.getD i "")

/-- `download_reel(url)`: the fetch collaborator
(`extract_reel_info` + `loader.download_post` + locating the `.mp4`) either
fails (`None` returned, nothing persisted) or yields a media path and a
caption, in which case `save_description_to_excel` appends a ledger row
with a blank upload date, the media file appears on disk, and the reel
dict is returned. -/
def download_reel (fetch : String → Option (String × String)) (now : String)
    (s : BotState) (url : String) : Option ReelData × BotState :=
  match fetch url with
  | none => (none, s)
  | some (path, desc) =>
      (some ⟨path, desc, url⟩,
        { s with
            ledger := s.ledger ++ [⟨url, desc, now, ""⟩],
            files := s.files ++ [path] })

/-- The `for url in selected_reels` loop of `process_daily_reels`:
download each selected url in order, collecting the successful results. -/
def download_loop (fetch : String → Option (String × String)) (now : String)
    (s : BotState) : List String → List ReelData × BotState
  | [] => ([], s)
  | url :: rest =>
      match download_reel fetch now s url with
      | (some d, s1) =>
          match download_loop fetch now s1 rest with
          | (ds, s2) => (d :: ds, s2)
      | (none, s1) => download_loop fetch now s1 rest

/-- `process_daily_reels`: if fewer than `daily_limit` reels are available,
log a warning and return `[]`; otherwise sample `daily_limit` reels,
download each, append ALL sampled urls to `used.json` (whether or not the
download succeeded), write the successful downloads as today's queue file
and return them. -/
def process_daily_reels (fetch : String → Option (String × String)) (now : String)
    (idx : List Nat) (s : BotState) : List ReelData × BotState :=
  let available := get_available_reels s
  if available.length < daily_limit then
    ([], s)
  else
    let selected := random_sample available idx
    match download_loop fetch now s selected with
    | (downloaded, s1) =>
        (downloaded,
          { s1 with
              used_reels := s1.used_reels ++ selected,
              daily_queue := some downloaded })

/-- `update_upload_date_in_excel(url)`:
`df.loc[df['URL'] == url, 'Upload_Date'] = now` — every ledger row whose
URL matches gets its upload date set. -/
def update_upload_date (now : String) (ledger : List LedgerRow) (url : String) :
    List LedgerRow :=
  ledger.map (fun row => if row.url == url then { row with upload_date := now } else row)

/-- `upload_reel(video_path, description, url)`: on publish success, stamp
the ledger row, delete the media file and return `True`; on publish
failure (exception from `clip_upload`) change nothing and return `False`. -/
def upload_reel (publish : String → String → Bool) (now : String)
    (s : BotState) (video_path desc url : String) : Bool × BotState :=
  if publish video_path desc then
    (true,
      { s with
          ledger := update_upload_date now s.ledger url,
          files := s.files.filter (fun f => !(f == video_path)) })
  else
    (false, s)

/-- `upload_next_reel`: no-op when today's queue file is absent or empty;
otherwise pop the front entry, try to upload it, and persist either the
shortened queue (success) or the queue with the entry re-inserted at the
front (failure). -/
def upload_next_reel (publish : String → String → Bool) (now : String)
    (s : BotState) : BotState :=
  match s.daily_queue with
  | none => s
  | some [] => s
  | some (reel :: rest) =>
      match upload_reel publish now s reel.file_path reel.description reel.url with
      | (true, s1) => { s1 with daily_queue := some rest }
      | (false, s1) => { s1 with daily_queue := some (reel :: rest) }

/-- Days of the week, as used by `schedule.every().<day>`. -/
inductive Weekday
  | monday | tuesday | wednesday | thursday | friday | saturday | sunday
  deriving Repr, DecidableEq, BEq

/-- The two scheduled actions: `process_daily_reels` (prepare) and
`upload_next_reel` (publish/drain). -/
inductive Action
  | prepare | publish
  deriving Repr, DecidableEq, BEq

/-- `setup_schedule`: the full table of `schedule.every().<day>.at(t).do(a)`
bindings.  `schedule.every().day.at("00:01").do(process_daily_reels)`
binds once for each of the seven days. -/
def schedule_table : List (Weekday × String × Action) :=
  [(Weekday.monday, "07:30", Action.publish),
   (Weekday.monday, "11:00", Action.publish),
   (Weekday.monday, "13:30", Action.publish),
   (Weekday.monday, "17:30", Action.publish),
   (Weekday.monday, "21:00", Action.publish),
   (Weekday.tuesday, "07:30", Action.publish),
   (Weekday.tuesday, "11:00", Action.publish),
   (Weekday.tuesday, "13:30", Action.publish),
   (Weekday.tuesday, "17:30", Action.publish),
   (Weekday.tuesday, "21:00", Action.publish),
   (Weekday.wednesday, "07:30", Action.publish),
   (Weekday.wednesday, "11:00", Action.publish),
   (Weekday.wednesday, "13:30", Action.publish),
   (Weekday.wednesday, "17:30", Action.publish),
   (Weekday.wednesday, "21:00", Action.publish),
   (Weekday.thursday, "07:30", Action.publish),
   (Weekday.thursday, "11:00", Action.publish),
   (Weekday.thursday, "13:30", Action.publish),
   (Weekday.thursday, "17:30", Action.publish),
   (Weekday.thursday, "21:00", Action.publish),
   (Weekday.friday, "07:30", Action.publish),
   (Weekday.friday, "11:00", Action.publish),
   (Weekday.friday, "13:30", Action.publish),
   (Weekday.friday, "17:30", Action.publish),
   (Weekday.friday, "21:00", Action.publish),
   (Weekday.saturday, "09:00", Action.publish),
   (Weekday.saturday, "12:00", Action.publish),
   (Weekday.saturday, "15:00", Action.publish),
   (Weekday.saturday, "18:30", Action.publish),
   (Weekday.saturday, "21:30", Action.publish),
   (Weekday.sunday, "09:00", Action.publish),
   (Weekday.sunday, "12:00", Action.publish),
   (Weekday.sunday, "15:00", Action.publish),
   (Weekday.sunday, "18:30", Action.publish),
   (Weekday.sunday, "21:30", Action.publish),
   (Weekday.monday, "00:01", Action.prepare),
   (Weekday.tuesday, "00:01", Action.prepare),
   (Weekday.wednesday, "00:01", Action.prepare),
   (Weekday.thursday, "00:01", Action.prepare),
   (Weekday.friday, "00:01", Action.prepare),
   (Weekday.saturday, "00:01", Action.prepare),
   (Weekday.sunday, "00:01", Action.prepare)]

/-- The drain (publish) slots bound for a given day. -/
def drain_slots (d : Weekday) : List String :=
  (schedule_table.filter (fun e => e.1 == d && e.2.2 == Action.publish)).map
    (fun e => e.2.1)

/-- The prepare slots bound for a given day. -/
def prepare_slots (d : Weekday) : List String :=
  (schedule_table.filter (fun e => e.1 == d && e.2.2 == Action.prepare)).map
    (fun e => e.2.1)

/-! ### Helper lemmas -/

theorem mem_get_available (s : BotState) (r : String) :
    r ∈ get_available_reels s ↔ r ∈ s.all_reels ∧ r ∉ s.used_reels := by
  simp [get_available_reels]

theorem count_get_available (s : BotState) (r : String) :
    (get_available_reels s).count r =
      if r ∈ s.used_reels then 0 else s.all_reels.count r := by
  by_cases h : r ∈ s.used_reels
  · rw [if_pos h, List.count_eq_zero]
    intro hmem
    exact ((mem_get_available s r).mp hmem).2 h
  · rw [if_neg h, get_available_reels, List.count_filter]
    simp [h]

theorem download_loop_fst (fetch : String → Option (String × String)) (now : String)
    (s : BotState) (urls : List String) :
    (download_loop fetch now s urls).1 =
      urls.filterMap (fun url => (fetch url).map (fun pd => ReelData.mk pd.1 pd.2 url)) := by
  induction urls generalizing s with
  | nil => rfl
  | cons u rest ih =>
      rw [download_loop, download_reel, List.filterMap_cons]
      cases h : fetch u with
      | none => simpa using ih s
      | some pd =>
          cases pd with
          | mk path desc => simp [ih]

theorem download_loop_preserves (fetch : String → Option (String × String)) (now : String)
    (s : BotState) (urls : List String) :
    (download_loop fetch now s urls).2.all_reels = s.all_reels ∧
    (download_loop fetch now s urls).2.used_reels = s.used_reels ∧
    (download_loop fetch now s urls).2.daily_queue = s.daily_queue := by
  induction urls generalizing s with
  | nil => exact ⟨rfl, rfl, rfl⟩
  | cons u rest ih =>
      rw [download_loop, download_reel]
      cases h : fetch u with
      | none => simpa using ih s
      | some pd =>
          cases pd with
          | mk path desc => simpa using ih _

theorem process_daily_reels_eq (fetch : String → Option (String × String)) (now : String)
    (idx : List Nat) (s : BotState)
    (hnot : ¬ (get_available_reels s).length < daily_limit) :
    process_daily_reels fetch now idx s =
      ((download_loop fetch now s (random_sample (get_available_reels s) idx)).1,
        { (download_loop fetch now s (random_sample (get_available_reels s) idx)).2 with
            used_reels :=
              (download_loop fetch now s
                (random_sample (get_available_reels s) idx)).2.used_reels
                ++ random_sample (get_available_reels s) idx,
            daily_queue :=
              some (download_loop fetch now s
                (random_sample (get_available_reels s) idx)).1 }) := by
  simp only [process_daily_reels, if_neg hnot]

theorem mem_update_upload_date (now : String) (ledger : List LedgerRow) (url : String)
    (row : LedgerRow) (h : row ∈ update_upload_date now ledger url)
    (hu : row.url = url) : row.upload_date = now := by
  obtain ⟨row0, _, heq⟩ := List.mem_map.mp h
  by_cases hc : row0.url == url
  · rw [if_pos hc] at heq
    rw [← heq]
  · rw [if_neg hc] at heq
    subst heq
    exact absurd (by exact beq_iff_eq.mpr hu) hc

theorem update_upload_date_mem_of (now : String) (ledger : List LedgerRow) (url : String)
    (row : LedgerRow) (h : row ∈ ledger) (hu : row.url = url) :
    { row with upload_date := now } ∈ update_upload_date now ledger url := by
  rw [update_upload_date]
  refine List.mem_map.mpr ⟨row, h, ?_⟩
  rw [if_pos (beq_iff_eq.mpr hu)]

theorem countP_range_getD (pool : List String) (r : String) :
    (List.range pool.length).countP (fun i => pool.getD i "" == r) = pool.count r := by
  induction pool with
  | nil => rfl
  | cons x xs ih =>
      rw [List.length_cons, List.range_succ_eq_map, List.countP_cons, List.countP_map,
        List.count_cons]
      simp only [Function.comp_def, List.getD_cons_succ, List.getD_cons_zero]
      rw [ih]

theorem random_sample_count_le (pool : List String) (idx : List Nat)
    (h1 : idx.Nodup) (h2 : ∀ i ∈ idx, i < pool.length) (r : String) :
    (random_sample pool idx).count r ≤ pool.count r := by
  have hsub : List.Subperm idx (List.range pool.length) :=
    h1.subperm (fun i hi => List.mem_range.mpr (h2 i hi))
  have hmap : (random_sample pool idx).count r =
      idx.countP (fun i => pool.getD i "" == r) := by
    rw [random_sample, List.count, List.countP_map]
    rfl
  rw [hmap, ← countP_range_getD pool r]
  exact hsub.countP_le _

theorem random_sample_subset (pool : List String) (idx : List Nat)
    (h2 : ∀ i ∈ idx, i < pool.length) :
    ∀ r ∈ random_sample pool idx, r ∈ pool := by
  intro r hr
  obtain ⟨i, hi, hrfl⟩ := List.mem_map.mp hr
  have hlt : i < pool.length := h2 i hi
  rw [← hrfl, List.getD_eq_getElem pool "" hlt]
  exact List.getElem_mem hlt

theorem drain_empty_step (publish : String → String → Bool) (now : String)
    (s : BotState) (hq : s.daily_queue = none ∨ s.daily_queue = some []) :
    upload_next_reel publish now s = s := by
  rcases hq with h | h <;> simp [upload_next_reel, h]

/-! ### Concrete states used by the witnesses -/

def reelA : ReelData := ⟨"a.mp4", "descA", "urlA"⟩

def state_queued : BotState :=
  ⟨["urlA"], ["urlA"], some [reelA], [⟨"urlA", "descA", "d0", ""⟩], ["a.mp4"]⟩

def state_drained : BotState := ⟨["urlA"], [], some [], [], []⟩

def state_small : BotState := ⟨["u1", "u2", "u3"], [], none, [], []⟩

def state_big : BotState := ⟨["u1", "u2", "u3", "u4", "u5", "u6"], [], none, [], []⟩

def state_dup : BotState := ⟨["a", "a", "b", "c", "d", "e"], [], none, [], []⟩

def fetch_first : String → Option (String × String) :=
  fun u => if u == "u1" then some ("f1.mp4", "d1") else none

/-! ### The claims -/

/-- C4: `get_available_reels` returns exactly the elements of the all-items
list that are not in the used set: it is an order-preserving sublist of
the all-items list, membership is exactly (in all-items and not used), and
duplicates in the all-items list are kept as distinct eligible entries —
an unused reference keeps its full all-items multiplicity. -/
theorem available_is_ordered_difference (s : BotState) :
    (get_available_reels s).Sublist s.all_reels ∧
    (∀ r, r ∈ get_available_reels s ↔ r ∈ s.all_reels ∧ r ∉ s.used_reels) ∧
    (∀ r, (get_available_reels s).count r =
      if r ∈ s.used_reels then 0 else s.all_reels.count r) :=
  ⟨List.filter_sublist _, fun r => mem_get_available s r, fun r => count_get_available s r⟩

/-- C7: each drain invocation processes at most one entry: the persisted
queue afterwards is either exactly the original queue or the original
queue with exactly its head removed — drained strictly from the front,
never reordered. -/
theorem drain_pops_at_most_head (publish : String → String → Bool) (now : String)
    (s : BotState) :
    (upload_next_reel publish now s).daily_queue = s.daily_queue ∨
    ∃ e t, s.daily_queue = some (e :: t) ∧
      (upload_next_reel publish now s).daily_queue = some t := by
  cases hq : s.daily_queue with
  | none => left; simp [upload_next_reel, hq]
  | some l =>
      cases l with
      | nil => left; simp [upload_next_reel, hq]
      | cons e t =>
          by_cases hp : publish e.file_path e.description
          · right
            exact ⟨e, t, rfl, by simp [upload_next_reel, hq, upload_reel, hp]⟩
          · left
            simp [upload_next_reel, hq, upload_reel, hp]

/-- C2: when the publish collaborator fails on the head entry of a
non-empty daily queue, the drain call leaves the entire persisted state
unchanged — in particular the queue keeps the same length and the same
entry at the front, so the identical entry is retried on the next drain
call, with no backoff and no retry-count cap. -/
theorem drain_failure_requeues_front (publish : String → String → Bool) (now : String)
    (s : BotState) (e : ReelData) (t : List ReelData)
    (hq : s.daily_queue = some (e :: t))
    (hp : publish e.file_path e.description = false) :
    upload_next_reel publish now s = s ∧
    (upload_next_reel publish now s).daily_queue = some (e :: t) := by
  cases s with
  | mk ar ur dq lg fl =>
      simp only at hq
      subst hq
      refine ⟨?_, ?_⟩ <;> simp [upload_next_reel, upload_reel, hp]

theorem drain_failure_requeues_front_witness :
    upload_next_reel (fun _ _ => false) "t1" state_queued = state_queued ∧
    (upload_next_reel (fun _ _ => false) "t1" state_queued).daily_queue =
      some (reelA :: []) :=
  drain_failure_requeues_front (fun _ _ => false) "t1" state_queued reelA [] rfl rfl

/-- C6: when the daily queue file is absent or holds the empty list, a
drain call is a no-op, and any number of repeated drain calls never errors
and leaves the whole state — queue, used set and ledger — unchanged. -/
theorem drain_empty_idempotent (publish : String → String → Bool) (now : String)
    (s : BotState) (hq : s.daily_queue = none ∨ s.daily_queue = some []) :
    ∀ n : Nat, (upload_next_reel publish now)^[n] s = s := by
  intro n
  induction n with
  | zero => rfl
  | succ k ih =>
      rw [Function.iterate_succ_apply, drain_empty_step publish now s hq, ih]

theorem drain_empty_idempotent_witness :
    (upload_next_reel (fun _ _ => true) "t2")^[3] state_drained = state_drained :=
  drain_empty_idempotent (fun _ _ => true) "t2" state_drained (Or.inr rfl) 3

/-- C9: when fewer than `daily_limit` reels are available,
`process_daily_reels` returns the empty list and changes no persisted
state at all: the used set is not extended, no daily queue is written and
no ledger row is added. -/
theorem materialize_insufficient_is_noop (fetch : String → Option (String × String))
    (now : String) (idx : List Nat) (s : BotState)
    (h : (get_available_reels s).length < daily_limit) :
    process_daily_reels fetch now idx s = ([], s) := by
  simp [process_daily_reels, h]

theorem materialize_insufficient_is_noop_witness :
    process_daily_reels (fun _ => none) "t3" [0] state_small = ([], state_small) :=
  materialize_insufficient_is_noop (fun _ => none) "t3" [0] state_small (by decide)

/-- C1: when at least `daily_limit` reels are available and the random
draw has `daily_limit` indices, `process_daily_reels` appends exactly the
sampled references to the used set — regardless of which per-item fetches
succeeded or failed — and returns the list of successfully materialized
entries (the sampled urls whose fetch succeeded, in order), which may be
shorter than `daily_limit`; that list is also persisted as today's queue. -/
theorem materialize_marks_sample_used (fetch : String → Option (String × String))
    (now : String) (idx : List Nat) (s : BotState)
    (hlen : daily_limit ≤ (get_available_reels s).length)
    (hidx : idx.length = daily_limit) :
    (process_daily_reels fetch now idx s).2.used_reels =
      s.used_reels ++ random_sample (get_available_reels s) idx ∧
    (random_sample (get_available_reels s) idx).length = daily_limit ∧
    (process_daily_reels fetch now idx s).1 =
      (random_sample (get_available_reels s) idx).filterMap
        (fun url => (fetch url).map (fun pd => ReelData.mk pd.1 pd.2 url)) ∧
    (process_daily_reels fetch now idx s).1.length ≤ daily_limit ∧
    (process_daily_reels fetch now idx s).2.daily_queue =
      some (process_daily_reels fetch now idx s).1 := by
  have hnot : ¬ (get_available_reels s).length < daily_limit := Nat.not_lt.mpr hlen
  rw [process_daily_reels_eq fetch now idx s hnot]
  have hpres := download_loop_preserves fetch now s (random_sample (get_available_reels s) idx)
  have hfst := download_loop_fst fetch now s (random_sample (get_available_reels s) idx)
  have hsel : (random_sample (get_available_reels s) idx).length = daily_limit := by
    rw [random_sample, List.length_map, hidx]
  refine ⟨by rw [hpres.2.1], hsel, hfst, ?_, rfl⟩
  rw [hfst, ← hsel]
  exact List.length_filterMap_le _ _

theorem materialize_marks_sample_used_witness :
    (process_daily_reels fetch_first "t4" [0, 1, 2, 3, 4] state_big).2.used_reels =
      state_big.used_reels ++
        random_sample (get_available_reels state_big) [0, 1, 2, 3, 4] ∧
    (random_sample (get_available_reels state_big) [0, 1, 2, 3, 4]).length = daily_limit ∧
    (process_daily_reels fetch_first "t4" [0, 1, 2, 3, 4] state_big).1 =
      (random_sample (get_available_reels state_big) [0, 1, 2, 3, 4]).filterMap
        (fun url => (fetch_first url).map (fun pd => ReelData.mk pd.1 pd.2 url)) ∧
    (process_daily_reels fetch_first "t4" [0, 1, 2, 3, 4] state_big).1.length ≤
      daily_limit ∧
    (process_daily_reels fetch_first "t4" [0, 1, 2, 3, 4] state_big).2.daily_queue =
      some (process_daily_reels fetch_first "t4" [0, 1, 2, 3, 4] state_big).1 :=
  materialize_marks_sample_used fetch_first "t4" [0, 1, 2, 3, 4] state_big
    (by decide) (by decide)

/-- C3: when the publish collaborator succeeds on the head entry of a
non-empty daily queue, the drain call persists the queue with exactly the
head removed (the length decreases by one), every ledger row for that
entry's reference carries the non-blank upload timestamp, and the entry's
local media file no longer exists. -/
theorem drain_success_commits (publish : String → String → Bool) (now : String)
    (s : BotState) (e : ReelData) (t : List ReelData)
    (hq : s.daily_queue = some (e :: t))
    (hp : publish e.file_path e.description = true)
    (hnow : now ≠ "")
    (hrow : ∃ row ∈ s.ledger, row.url = e.url) :
    (upload_next_reel publish now s).daily_queue = some t ∧
    (∀ row ∈ (upload_next_reel publish now s).ledger,
      row.url = e.url → row.upload_date = now) ∧
    (∃ row ∈ (upload_next_reel publish now s).ledger,
      row.url = e.url ∧ row.upload_date ≠ "") ∧
    e.file_path ∉ (upload_next_reel publish now s).files := by
  have hstep : upload_next_reel publish now s =
      { s with
          daily_queue := some t,
          ledger := update_upload_date now s.ledger e.url,
          files := s.files.filter (fun f => !(f == e.file_path)) } := by
    simp [upload_next_reel, hq, upload_reel, hp]
  rw [hstep]
  obtain ⟨row0, hrow0, hurl0⟩ := hrow
  refine ⟨rfl, ?_, ?_, ?_⟩
  · intro row hrmem hrurl
    exact mem_update_upload_date now s.ledger e.url row hrmem hrurl
  · exact ⟨{ row0 with upload_date := now },
      update_upload_date_mem_of now s.ledger e.url row0 hrow0 hurl0, hurl0, hnow⟩
  · intro hmem
    have := List.of_mem_filter hmem
    simp at this

theorem drain_success_commits_witness :
    (upload_next_reel (fun _ _ => true) "t5" state_queued).daily_queue = some [] ∧
    (∀ row ∈ (upload_next_reel (fun _ _ => true) "t5" state_queued).ledger,
      row.url = reelA.url → row.upload_date = "t5") ∧
    (∃ row ∈ (upload_next_reel (fun _ _ => true) "t5" state_queued).ledger,
      row.url = reelA.url ∧ row.upload_date ≠ "") ∧
    reelA.file_path ∉ (upload_next_reel (fun _ _ => true) "t5" state_queued).files :=
  drain_success_commits (fun _ _ => true) "t5" state_queued reelA [] rfl rfl
    (by decide) ⟨⟨"urlA", "descA", "d0", ""⟩, by simp [state_queued], rfl⟩

/-- C5: when fewer than `daily_limit` reels are available,
`process_daily_reels` takes the insufficient-pool branch (a logged
warning, not an exception) and yields the empty batch; when enough are
available and the random draw is valid (`daily_limit` distinct in-bounds
indices), the sample has exactly `daily_limit` entries, every sampled
entry comes from the available pool, the draw is without replacement (no
entry is taken more often than it occurs in the pool), so over a
duplicate-free pool the sampled elements are distinct. -/
theorem select_spec (fetch : String → Option (String × String)) (now : String)
    (idx : List Nat) (s : BotState) :
    ((get_available_reels s).length < daily_limit →
      (process_daily_reels fetch now idx s).1 = []) ∧
    (idx.Nodup → (∀ i ∈ idx, i < (get_available_reels s).length) →
      idx.length = daily_limit →
      (random_sample (get_available_reels s) idx).length = daily_limit ∧
      (∀ r ∈ random_sample (get_available_reels s) idx, r ∈ get_available_reels s) ∧
      (∀ r, (random_sample (get_available_reels s) idx).count r ≤
        (get_available_reels s).count r) ∧
      ((get_available_reels s).Nodup →
        (random_sample (get_available_reels s) idx).Nodup)) := by
  constructor
  · intro h
    simp [process_daily_reels, h]
  · intro h1 h2 h3
    refine ⟨by rw [random_sample, List.length_map, h3],
      random_sample_subset (get_available_reels s) idx h2,
      random_sample_count_le (get_available_reels s) idx h1 h2, ?_⟩
    intro hnd
    rw [List.nodup_iff_count_le_one]
    intro r
    exact le_trans (random_sample_count_le (get_available_reels s) idx h1 h2 r)
      (List.nodup_iff_count_le_one.mp hnd r)

theorem select_spec_witness :
    (process_daily_reels (fun _ => none) "t6" [0, 1, 2, 3, 4] state_small).1 = [] ∧
    (random_sample (get_available_reels state_big) [0, 1, 2, 3, 4]).length =
      daily_limit ∧
    (random_sample (get_available_reels state_big) [0, 1, 2, 3, 4]).Nodup :=
  ⟨(select_spec (fun _ => none) "t6" [0, 1, 2, 3, 4] state_small).1 (by decide),
    ((select_spec (fun _ => none) "t6" [0, 1, 2, 3, 4] state_big).2 (by decide)
      (by decide) rfl).1,
    ((select_spec (fun _ => none) "t6" [0, 1, 2, 3, 4] state_big).2 (by decide)
      (by decide) rfl).2.2.2 (by decide)⟩

/-- C10: eligibility filtering is by membership of the reference string in
the used set, not multiset difference: once a sampled reference lands in
the used set via `process_daily_reels`, every reference in the used set —
including every duplicated occurrence in the all-items list — is excluded
from `get_available_reels`, whose count for any used reference is zero. -/
theorem used_reference_excludes_duplicates (fetch : String → Option (String × String))
    (now : String) (idx : List Nat) (s : BotState) (r : String)
    (hlen : daily_limit ≤ (get_available_reels s).length)
    (hr : r ∈ random_sample (get_available_reels s) idx) :
    r ∈ (process_daily_reels fetch now idx s).2.used_reels ∧
    (∀ x ∈ (process_daily_reels fetch now idx s).2.used_reels,
      x ∉ get_available_reels (process_daily_reels fetch now idx s).2 ∧
      (get_available_reels (process_daily_reels fetch now idx s).2).count x = 0) := by
  have hnot : ¬ (get_available_reels s).length < daily_limit := Nat.not_lt.mpr hlen
  rw [process_daily_reels_eq fetch now idx s hnot]
  constructor
  · exact List.mem_append_right _ hr
  · intro x hx
    constructor
    · intro hmem
      exact ((mem_get_available _ x).mp hmem).2 hx
    · rw [count_get_available, if_pos hx]

theorem used_reference_excludes_duplicates_witness :
    "a" ∈ (process_daily_reels (fun _ => none) "t7" [0] state_dup).2.used_reels ∧
    "a" ∉ get_available_reels (process_daily_reels (fun _ => none) "t7" [0] state_dup).2 ∧
    (get_available_reels
      (process_daily_reels (fun _ => none) "t7" [0] state_dup).2).count "a" = 0 :=
  ⟨(used_reference_excludes_duplicates (fun _ => none) "t7" [0] state_dup "a"
      (by decide) (by decide)).1,
    (used_reference_excludes_duplicates (fun _ => none) "t7" [0] state_dup "a"
      (by decide) (by decide)).2 "a"
      ((used_reference_excludes_duplicates (fun _ => none) "t7" [0] state_dup "a"
        (by decide) (by decide)).1)⟩

/-- C8 counterexample: the claim says five or ten drain slots per day
depending on the weekday; in `setup_schedule` every day of the week —
weekend days included — binds exactly five drain slots, and no day binds
ten. -/
theorem schedule_five_or_ten_counterexample :
    (drain_slots Weekday.monday).length = 5 ∧
    (drain_slots Weekday.tuesday).length = 5 ∧
    (drain_slots Weekday.wednesday).length = 5 ∧
    (drain_slots Weekday.thursday).length = 5 ∧
    (drain_slots Weekday.friday).length = 5 ∧
    (drain_slots Weekday.saturday).length = 5 ∧
    (drain_slots Weekday.sunday).length = 5 ∧
    ¬ (drain_slots Weekday.saturday).length = 10 ∧
    ¬ (drain_slots Weekday.sunday).length = 10 := by
  decide

/-- C8 (amended): the schedule binds, for each day of the week, a fixed
set of local-time publish slots each mapped to one drain call — exactly
five drain slots per day on every day, the weekday and weekend slot-time
sets differing — plus exactly one daily prepare slot at 00:01. -/
theorem schedule_slots_per_day (d : Weekday) :
    (drain_slots d).length = 5 ∧ prepare_slots d = ["00:01"] ∧
    (drain_slots d = ["07:30", "11:00", "13:30", "17:30", "21:00"] ∨
      drain_slots d = ["09:00", "12:00", "15:00", "18:30", "21:30"]) := by
  cases d <;> decide

end Reels
